import Mathlib

/-!
CelPd: the OpenSL ES / libpd audio bridge of `blocks/celpd`.

A shallow embedding of `src/blocks/celpd/src/celpd.cpp` (class `cel::CelPd`).

* The object's members are the fields of the structure `CelPd`.  Handles to
  device objects are `Option Nat` (`none` is `NULL`).
* Calls that leave the class (OpenSL ES, libpd, the thread library) and the
  notifications that enter it (buffer-queue callbacks) are appended, in order,
  to the ghost field `trace`.
* The return codes of device calls only feed `assert`s in the source; the
  device is taken to answer `SL_RESULT_SUCCESS`.  A dereference of a `NULL`
  handle and a failed `assert` on a value the class computes itself are
  faults (`none`, or the program point `Pc.crashed` for the thread).
* The sample values written by the engine and by the recorder are outside the
  model: an engine invocation and a buffer submission are recorded with the
  index of the block they touch.
* The processing thread (`playerLoop`) is a small-step machine over program
  points `Pc`; hardware callbacks and `pause` interleave with it through
  `Sys.step`.  A wait on a condition variable is a step that cannot be taken
  while the condition of its `while` loop holds.
* `mMixerThread->interrupt()` is recorded as an event; what the thread library
  then does to the thread is outside the model.
* `int` members are `Int`; the two buffer indices, which only ever hold 0 or 1,
  are `Nat` and are flipped by `^^^ 1`.
-/

namespace cel

/-! ## Constants -/

/-- The `kBufferSamples` constant: frames per exchanged block. -/
def kBufferSamples : Nat := 1024

/-- Modelled from the spec: the engine's native block size in frames, the
result of `libpd_blocksize()` (section 6, `blockSize`); libpd is not under
`src/`, and the comment at `kBufferSamples` gives the value 64. -/
def libpd_blocksize : Nat := 64

/-- Modelled from the spec: the sampling-rate constants `SL_SAMPLINGRATE_*` of
the device interface are declared in `SLES/OpenSLES.h`, which is not under
`src/`; OpenSL ES gives rates in milliHertz. -/
def SL_SAMPLINGRATE_8 : Nat := 8000000
def SL_SAMPLINGRATE_11_025 : Nat := 11025000
def SL_SAMPLINGRATE_16 : Nat := 16000000
def SL_SAMPLINGRATE_22_05 : Nat := 22050000
def SL_SAMPLINGRATE_24 : Nat := 24000000
def SL_SAMPLINGRATE_32 : Nat := 32000000
def SL_SAMPLINGRATE_44_1 : Nat := 44100000
def SL_SAMPLINGRATE_48 : Nat := 48000000
def SL_SAMPLINGRATE_64 : Nat := 64000000
def SL_SAMPLINGRATE_88_2 : Nat := 88200000
def SL_SAMPLINGRATE_96 : Nat := 96000000
def SL_SAMPLINGRATE_192 : Nat := 192000000

/-- The `slSampleRate` function; the `int` result `-1` of the default case
converts to the `SLuint32` value 4294967295. -/
def slSampleRate (sampleRate : Int) : Nat :=
  if sampleRate = 8000 then SL_SAMPLINGRATE_8
  else if sampleRate = 11025 then SL_SAMPLINGRATE_11_025
  else if sampleRate = 16000 then SL_SAMPLINGRATE_16
  else if sampleRate = 22050 then SL_SAMPLINGRATE_22_05
  else if sampleRate = 24000 then SL_SAMPLINGRATE_24
  else if sampleRate = 32000 then SL_SAMPLINGRATE_32
  else if sampleRate = 44100 then SL_SAMPLINGRATE_44_1
  else if sampleRate = 48000 then SL_SAMPLINGRATE_48
  else if sampleRate = 64000 then SL_SAMPLINGRATE_64
  else if sampleRate = 88200 then SL_SAMPLINGRATE_88_2
  else if sampleRate = 96000 then SL_SAMPLINGRATE_96
  else if sampleRate = 192000 then SL_SAMPLINGRATE_192
  else 4294967295

/-- Conversion of a 32-bit unsigned product to `int` (two's complement). -/
def toInt32 (x : Int) : Int :=
  let m := x % 4294967296
  if m < 2147483648 then m else m - 4294967296

/-! ## Events and state -/

/-- Calls to the external collaborators and notifications from them. -/
inductive Event where
  | pdInit
  | pdInitAudio (inChannels outChannels sampleRate : Int)
  | pdDsp (enable : Bool)
  | pdProcess (ticks inBuf outBuf : Nat)
  | slCreateEngine
  | realize (obj : Nat)
  | getInterface (obj itf : Nat)
  | createAudioRecorder (channels : Int) (slrate : Nat)
  | createOutputMix
  | createAudioPlayer (channels : Int) (slrate : Nat)
  | registerRecorderCallback
  | registerPlayerCallback
  | setRecordState
  | setPlayState (itf : Nat) (playing : Bool)
  | destroy (obj : Nat)
  | enqueueRecorder (buf : Nat)
  | enqueuePlayer (buf : Nat)
  | threadStart (tid : Nat)
  | threadInterrupt (tid : Nat)
  | notifyOutput
  | notifyInput
  | playerCallback
  | recorderCallback
  deriving DecidableEq, Repr

/-- The members of `class CelPd`, with the ghost `trace`. -/
structure CelPd where
  mEngineObject : Option Nat
  mEngineEngine : Option Nat
  mOutputMixObject : Option Nat
  bqRecorderObject : Option Nat
  bqRecorderRecord : Option Nat
  bqRecorderBufferQueue : Option Nat
  bqPlayerObject : Option Nat
  bqPlayerPlay : Option Nat
  bqPlayerBufferQueue : Option Nat
  mMixerThread : Option Nat
  mPlayerRunning : Bool
  mRecorderRunning : Bool
  mOutputReady : Bool
  mInputReady : Bool
  mOutputBufIndex : Nat
  mOutputBuf : List Int × List Int
  mInputBufIndex : Nat
  mInputBuf : List Int × List Int
  mOutputBufSamples : Int
  mInputBufSamples : Int
  mInputChannels : Int
  mOutputChannels : Int
  trace : List Event
  deriving DecidableEq, Repr

/-- Object ids the device hands out, one per created object or interface. -/
def idEngineObject : Nat := 1
def idEngineEngine : Nat := 2
def idRecorderObject : Nat := 3
def idRecorderRecord : Nat := 4
def idRecorderBufferQueue : Nat := 5
def idOutputMixObject : Nat := 6
def idPlayerObject : Nat := 7
def idPlayerPlay : Nat := 8
def idPlayerBufferQueue : Nat := 9

/-! ## Construction -/

/-- The `CelPd::initInput` method. -/
def initInput (s : CelPd) (channels sampleRate : Int) : Option CelPd :=
  let slrate := slSampleRate sampleRate
  if slrate = 4294967295 then none
  else some { s with
    bqRecorderObject := some idRecorderObject
    bqRecorderRecord := some idRecorderRecord
    bqRecorderBufferQueue := some idRecorderBufferQueue
    trace := s.trace ++
      [Event.createAudioRecorder channels slrate,
       Event.realize idRecorderObject,
       Event.getInterface idRecorderObject idRecorderRecord,
       Event.getInterface idRecorderObject idRecorderBufferQueue,
       Event.registerRecorderCallback,
       Event.setRecordState] }

/-- The `CelPd::initOutput` method. -/
def initOutput (s : CelPd) (channels sampleRate : Int) : Option CelPd :=
  let slrate := slSampleRate sampleRate
  if slrate = 4294967295 then none
  else some { s with
    mOutputMixObject := some idOutputMixObject
    bqPlayerObject := some idPlayerObject
    bqPlayerPlay := some idPlayerPlay
    bqPlayerBufferQueue := some idPlayerBufferQueue
    trace := s.trace ++
      [Event.createOutputMix,
       Event.realize idOutputMixObject,
       Event.createAudioPlayer channels slrate,
       Event.realize idPlayerObject,
       Event.getInterface idPlayerObject idPlayerPlay,
       Event.getInterface idPlayerObject idPlayerBufferQueue,
       Event.registerPlayerCallback] }

/-- The `CelPd::initSL` method. -/
def initSL (s : CelPd) (inChannels outChannels sampleRate : Int) : Option CelPd :=
  let s1 := { s with
    mEngineObject := some idEngineObject
    mEngineEngine := some idEngineEngine
    trace := s.trace ++
      [Event.slCreateEngine,
       Event.realize idEngineObject,
       Event.getInterface idEngineObject idEngineEngine] }
  if inChannels ≠ 0 then
    (initInput s1 inChannels sampleRate).bind fun s2 => initOutput s2 outChannels sampleRate
  else
    initOutput s1 outChannels sampleRate

/-- The result of `new int16_t[n]`: `n` samples of indeterminate value (read
from `heap`), or a failure when `n` is negative. -/
def newSamples (heap : Nat → Int) (n : Int) : Option (List Int) :=
  if n < 0 then none else some ((List.range n.toNat).map heap)

/-- The constructor `CelPd::CelPd`.  `raw` is the storage before construction:
members the initialiser list and the body leave alone keep their `raw` value
(`mInputReady` among them). -/
def ctor (raw : CelPd) (heap : Nat → Int) (inChannels outChannels sampleRate : Int) :
    Option CelPd :=
  let s0 := { raw with
    mEngineObject := none
    mOutputMixObject := none
    bqPlayerObject := none
    mPlayerRunning := false
    mRecorderRunning := false
    mOutputReady := false
    mOutputBufIndex := 0
    mInputBufIndex := 0
    mInputChannels := inChannels
    mOutputChannels := outChannels
    mMixerThread := none }
  (initSL s0 inChannels outChannels sampleRate).bind fun s1 =>
    let outSamples := toInt32 (kBufferSamples * outChannels)
    let inSamples := toInt32 (kBufferSamples * inChannels)
    (newSamples heap outSamples).bind fun o0 =>
    (newSamples heap inSamples).bind fun i0 =>
    (newSamples heap outSamples).bind fun o1 =>
    (newSamples heap inSamples).bind fun i1 =>
      some { s1 with
        mOutputBufSamples := outSamples
        mInputBufSamples := inSamples
        mOutputBuf := (o0, o1)
        mInputBuf := (i0, i1)
        trace := s1.trace ++ [Event.pdInitAudio inChannels outChannels sampleRate] }

/-- The static `CelPd::init` method; the trace of the session starts here. -/
def init (raw : CelPd) (heap : Nat → Int) (inChannels outChannels sampleRate : Int) :
    Option CelPd :=
  ctor { raw with trace := [Event.pdInit] } heap inChannels outChannels sampleRate

/-! ## Lifecycle operations -/

/-- The effect of `memset(buf, 0, sizeof(int16_t) * n)` on a block. -/
def memsetZero (buf : List Int) (n : Int) : List Int :=
  List.replicate (min n.toNat buf.length) 0 ++ buf.drop n.toNat

/-- Number of processing threads created so far. -/
def threadsStarted (tr : List Event) : Nat :=
  tr.countP fun e => match e with
    | Event.threadStart _ => true
    | _ => false

/-- The `CelPd::computeAudio` method. -/
def computeAudio (s : CelPd) (enable : Bool) : CelPd :=
  { s with trace := s.trace ++ [Event.pdDsp enable] }

/-- The `CelPd::play` method. -/
def play (s : CelPd) : Option CelPd :=
  match s.bqPlayerPlay with
  | none => none
  | some itf =>
    let tid := threadsStarted s.trace
    let s1 := { s with
      mInputReady := true
      mOutputReady := true
      mPlayerRunning := true
      mOutputBuf := (memsetZero s.mOutputBuf.1 s.mOutputBufSamples,
                     memsetZero s.mOutputBuf.2 s.mOutputBufSamples)
      mInputBuf := (memsetZero s.mInputBuf.1 s.mInputBufSamples,
                    memsetZero s.mInputBuf.2 s.mInputBufSamples)
      mMixerThread := some tid
      trace := s.trace ++ [Event.setPlayState itf true, Event.threadStart tid, Event.notifyOutput]
        ++ (if s.mInputChannels > 0 then [Event.notifyInput] else []) }
    some (computeAudio s1 true)

/-- The `CelPd::pause` method. -/
def pause (s : CelPd) : Option CelPd :=
  match s.mMixerThread, s.bqPlayerPlay with
  | some tid, some itf =>
    some { s with
      mPlayerRunning := false
      trace := s.trace ++ [Event.threadInterrupt tid, Event.setPlayState itf false] }
  | _, _ => none

/-- The `CelPd::close` method. -/
def close (s : CelPd) : CelPd :=
  let s1 := match s.bqPlayerObject with
    | some obj => { s with
        bqPlayerObject := none
        bqPlayerPlay := none
        bqPlayerBufferQueue := none
        trace := s.trace ++ [Event.destroy obj] }
    | none => s
  let s2 := match s1.mOutputMixObject with
    | some obj => { s1 with
        mOutputMixObject := none
        trace := s1.trace ++ [Event.destroy obj] }
    | none => s1
  match s2.mEngineObject with
  | some obj => { s2 with
      mEngineObject := none
      mEngineEngine := none
      trace := s2.trace ++ [Event.destroy obj] }
  | none => s2

/-- Number of `Destroy` calls recorded in a trace. -/
def destroyCalls (tr : List Event) : Nat :=
  tr.countP fun e => match e with
    | Event.destroy _ => true
    | _ => false

/-! ## Hardware callbacks -/

/-- The static `CelPd::bqPlayerCallback`: an output buffer has been consumed. -/
def bqPlayerCallback (s : CelPd) : CelPd :=
  { s with
    mOutputReady := true
    trace := s.trace ++ [Event.playerCallback, Event.notifyOutput] }

/-- The static `CelPd::bqRecorderCallback`: an input buffer has been filled. -/
def bqRecorderCallback (s : CelPd) : CelPd :=
  { s with
    mInputReady := true
    trace := s.trace ++ [Event.recorderCallback, Event.notifyInput] }

/-! ## The processing thread -/

/-- The condition of the wait loop of `enqueueRecorder`: `!mInputReady`. -/
def enqueueRecorderWaits (s : CelPd) : Bool :=
  !s.mInputReady

/-- The condition of the wait loop of `enqueuePlayer`:
`!mOutputReady && mPlayerRunning`. -/
def enqueuePlayerWaits (s : CelPd) : Bool :=
  !s.mOutputReady && s.mPlayerRunning

/-- The locked block of `enqueueRecorder`: `none` while the thread waits on
`mInputBufReady`, otherwise the flag is cleared. -/
def enqueueRecorderLocked (s : CelPd) : Option CelPd :=
  if enqueueRecorderWaits s then none
  else some { s with mInputReady := false }

/-- The `Enqueue` call of `enqueueRecorder`: `none` on a `NULL` queue. -/
def enqueueRecorderSubmit (s : CelPd) : Option CelPd :=
  match s.bqRecorderBufferQueue with
  | none => none
  | some _ => some { s with trace := s.trace ++ [Event.enqueueRecorder s.mInputBufIndex] }

/-- The locked block of `enqueuePlayer`: `none` while the thread waits on
`mOutputBufReady`, otherwise the flag is cleared. -/
def enqueuePlayerLocked (s : CelPd) : Option CelPd :=
  if enqueuePlayerWaits s then none
  else some { s with mOutputReady := false }

/-- The `Enqueue` call of `enqueuePlayer`: `none` on a `NULL` queue. -/
def enqueuePlayerSubmit (s : CelPd) : Option CelPd :=
  match s.bqPlayerBufferQueue with
  | none => none
  | some _ => some { s with trace := s.trace ++ [Event.enqueuePlayer s.mOutputBufIndex] }

/-- The `libpd_process_short` call of `playerLoop`, under `mPdLock`. -/
def processBlock (s : CelPd) : CelPd :=
  { s with trace := s.trace ++
      [Event.pdProcess (kBufferSamples / libpd_blocksize) s.mInputBufIndex s.mOutputBufIndex] }

/-- The two statements that end the body of `playerLoop`. -/
def flipIndices (s : CelPd) : CelPd :=
  { s with
    mInputBufIndex := s.mInputBufIndex ^^^ 1
    mOutputBufIndex := s.mOutputBufIndex ^^^ 1 }

/-- Program points of the thread running `playerLoop`. -/
inductive Pc where
  | loopHead
  | recWait
  | recEnqueue
  | process
  | playWait
  | playEnqueue
  | flip
  | exited
  | crashed
  deriving DecidableEq, Repr

/-- One step of the thread running `playerLoop`.  `none`: the thread cannot
move (it waits on a condition variable, or it has ended). -/
def playerLoopStep (pc : Pc) (s : CelPd) : Option (Pc × CelPd) :=
  match pc with
  | Pc.loopHead =>
    if s.mPlayerRunning then
      if s.mInputChannels > 0 then some (Pc.recWait, s) else some (Pc.process, s)
    else some (Pc.exited, s)
  | Pc.recWait => (enqueueRecorderLocked s).map fun s1 => (Pc.recEnqueue, s1)
  | Pc.recEnqueue =>
    match enqueueRecorderSubmit s with
    | some s1 => some (Pc.process, s1)
    | none => some (Pc.crashed, s)
  | Pc.process => some (Pc.playWait, processBlock s)
  | Pc.playWait => (enqueuePlayerLocked s).map fun s1 => (Pc.playEnqueue, s1)
  | Pc.playEnqueue =>
    match enqueuePlayerSubmit s with
    | some s1 => some (Pc.flip, s1)
    | none => some (Pc.crashed, s)
  | Pc.flip => some (Pc.loopHead, flipIndices s)
  | Pc.exited => none
  | Pc.crashed => none

/-- The session together with its processing thread; `iters` counts the
completed iterations of the loop body. -/
structure Sys where
  st : CelPd
  pc : Pc
  iters : Nat
  deriving DecidableEq, Repr

/-- One step of the processing thread, when it can move. -/
def Sys.stepLoop (y : Sys) : Option Sys :=
  (playerLoopStep y.pc y.st).map fun r =>
    { st := r.2, pc := r.1, iters := if y.pc = Pc.flip then y.iters + 1 else y.iters }

/-- What can happen next: the thread moves, the device calls back, or the
owner calls `pause()`. -/
inductive Action where
  | loop
  | playerCallback
  | recorderCallback
  | pause
  deriving DecidableEq, Repr

/-- One scheduled action.  A thread that cannot move stays where it is. -/
def Sys.step (y : Sys) (a : Action) : Sys :=
  match a with
  | Action.loop => (y.stepLoop).getD y
  | Action.playerCallback => { y with st := bqPlayerCallback y.st }
  | Action.recorderCallback => { y with st := bqRecorderCallback y.st }
  | Action.pause =>
    match pause y.st with
    | some s1 => { y with st := s1 }
    | none => { y with pc := Pc.crashed }

/-- A schedule, run from left to right. -/
def Sys.run (y : Sys) (sched : List Action) : Sys :=
  sched.foldl Sys.step y

/-- The thread runs until it cannot move (at most `fuel` steps). -/
def Sys.settle : Nat → Sys → Sys
  | 0, y => y
  | fuel + 1, y =>
    match y.stepLoop with
    | none => y
    | some y1 => Sys.settle fuel y1

/-- Session creation followed by `play()`: the thread `play()` creates stands
at the head of `playerLoop`. -/
def boot (raw : CelPd) (heap : Nat → Int) (inChannels outChannels sampleRate : Int) :
    Option Sys :=
  (init raw heap inChannels outChannels sampleRate).bind fun s0 =>
    (play s0).map fun s1 => { st := s1, pc := Pc.loopHead, iters := 0 }

/-! ## Observations on traces -/

/-- The engine invocations of a trace, in order: the time of the call (its
position in the trace, counted from `t`), the input block read and the output
block written. -/
def engineCalls : Nat → List Event → List (Nat × Nat × Nat)
  | _, [] => []
  | t, Event.pdProcess _ i o :: tr => (t, i, o) :: engineCalls (t + 1) tr
  | t, _ :: tr => engineCalls (t + 1) tr

/-- The output submissions of a trace, in order: the time of the `Enqueue`
call on the player queue and the output block submitted. -/
def outputSubmissions : Nat → List Event → List (Nat × Nat)
  | _, [] => []
  | t, Event.enqueuePlayer b :: tr => (t, b) :: outputSubmissions (t + 1) tr
  | t, _ :: tr => outputSubmissions (t + 1) tr

/-- Number of engine invocations in a trace. -/
def processCalls (tr : List Event) : Nat :=
  (engineCalls 0 tr).length

/-- Number of output submissions in a trace. -/
def playerSubmits (tr : List Event) : Nat :=
  (outputSubmissions 0 tr).length

/-- Does the event belong to the input path: creation of the recorder,
registration of its callback, or a submission to its queue. -/
def Event.isInputCall : Event → Bool
  | Event.createAudioRecorder _ _ => true
  | Event.registerRecorderCallback => true
  | Event.setRecordState => true
  | Event.enqueueRecorder _ => true
  | _ => false

/-- Has the engine been invoked in the iteration the thread is in. -/
def Pc.written : Pc → Nat
  | Pc.playWait => 1
  | Pc.playEnqueue => 1
  | Pc.flip => 1
  | _ => 0

/-- Has the output block been submitted in the iteration the thread is in. -/
def Pc.submitted : Pc → Nat
  | Pc.flip => 1
  | _ => 0

/-- The blocks the device holds, per direction, oldest first. -/
structure Held where
  input : List Nat
  output : List Nat
  deriving DecidableEq, Repr

/-- Ownership bookkeeping over one event: a submission hands a block to the
device, a completion callback returns the oldest one; `none` once the engine
has been invoked on a block the device holds. -/
def heldStep (h : Option Held) (e : Event) : Option Held :=
  match h with
  | none => none
  | some h =>
    match e with
    | Event.enqueueRecorder b => some { h with input := h.input ++ [b] }
    | Event.recorderCallback => some { h with input := h.input.drop 1 }
    | Event.enqueuePlayer b => some { h with output := h.output ++ [b] }
    | Event.playerCallback => some { h with output := h.output.drop 1 }
    | Event.pdProcess _ i o => if i ∈ h.input ∨ o ∈ h.output then none else some h
    | _ => some h

/-- No engine invocation of the trace touches a block the device holds. -/
def ownershipRespected (tr : List Event) : Bool :=
  (tr.foldl heldStep (some { input := [], output := [] })).isSome

/-- The blocks of a session have the size the constructor allocates. -/
def Allocated (s : CelPd) : Prop :=
  s.mOutputBuf.1.length = s.mOutputBufSamples.toNat ∧
  s.mOutputBuf.2.length = s.mOutputBufSamples.toNat ∧
  s.mInputBuf.1.length = s.mInputBufSamples.toNat ∧
  s.mInputBuf.2.length = s.mInputBufSamples.toNat

/-- What holds of the session and its thread at every moment after `boot`. -/
structure Inv (y : Sys) : Prop where
  playerQueue : y.st.bqPlayerBufferQueue ≠ none
  recorderQueue : 0 < y.st.mInputChannels → y.st.bqRecorderBufferQueue ≠ none
  playItf : y.st.bqPlayerPlay ≠ none
  thread : y.st.mMixerThread ≠ none
  alive : y.pc ≠ Pc.crashed
  inputPc : y.pc = Pc.recWait ∨ y.pc = Pc.recEnqueue → 0 < y.st.mInputChannels
  inIdx : y.st.mInputBufIndex = y.iters % 2
  outIdx : y.st.mOutputBufIndex = y.iters % 2
  calls : (engineCalls 0 y.st.trace).map Prod.snd =
    (List.range (y.iters + y.pc.written)).map fun k => (k % 2, k % 2)
  submits : (outputSubmissions 0 y.st.trace).map Prod.snd =
    (List.range (y.iters + y.pc.submitted)).map fun k => k % 2
  order : ∀ (N : Nat) (p : Nat × Nat), (outputSubmissions 0 y.st.trace)[N]? = some p →
    ∃ q : Nat × Nat × Nat, (engineCalls 0 y.st.trace)[N]? = some q ∧ q.1 < p.1

/-- The input path is off: no input channel, the thread is at neither input
program point, and no call of the input path has been made. -/
structure InputOff (y : Sys) : Prop where
  channels : y.st.mInputChannels = 0
  notWaiting : y.pc ≠ Pc.recWait
  notSubmitting : y.pc ≠ Pc.recEnqueue
  noCall : ∀ e ∈ y.st.trace, e.isInputCall = false

/-- The thread waits for an output buffer to be consumed, in a session
without input, having made `p` engine calls and `q` output submissions. -/
structure Waiting (y : Sys) (p q : Nat) : Prop where
  atWait : y.pc = Pc.playWait
  flag : y.st.mOutputReady = false
  running : y.st.mPlayerRunning = true
  noInput : ¬ 0 < y.st.mInputChannels
  queue : y.st.bqPlayerBufferQueue ≠ none
  calls : processCalls y.st.trace = p
  submits : playerSubmits y.st.trace = q

/-- Some storage to construct a session in. -/
def rawStorage : CelPd :=
  { mEngineObject := none, mEngineEngine := none, mOutputMixObject := none,
    bqRecorderObject := none, bqRecorderRecord := none, bqRecorderBufferQueue := none,
    bqPlayerObject := none, bqPlayerPlay := none, bqPlayerBufferQueue := none,
    mMixerThread := none, mPlayerRunning := false, mRecorderRunning := false,
    mOutputReady := false, mInputReady := false, mOutputBufIndex := 0,
    mOutputBuf := ([], []), mInputBufIndex := 0, mInputBuf := ([], []),
    mOutputBufSamples := 0, mInputBufSamples := 0, mInputChannels := 0,
    mOutputChannels := 0, trace := [] }

/-- Indeterminate heap contents for the examples. -/
def rawHeap : Nat → Int := fun i => (i : Int) - 7

/-- Scenario A: after `play()` the thread runs until it waits; then, `n` times,
an output-buffer-consumed callback arrives and the thread runs until it waits. -/
def scenarioA (fuel : Nat) (y0 : Sys) : Nat → Sys
  | 0 => y0.settle fuel
  | n + 1 => ((scenarioA fuel y0 n).step Action.playerCallback).settle fuel

/-- Scenario A read with the thread first scheduled after the first callback:
`n` times, a callback arrives and the thread runs until it waits. -/
def scenarioALate (fuel : Nat) (y0 : Sys) : Nat → Sys
  | 0 => y0
  | n + 1 => ((scenarioALate fuel y0 n).step Action.playerCallback).settle fuel

/-- The session of scenario A (no input, stereo output, 44100 Hz), started. -/
def sessionA : Sys :=
  (boot rawStorage rawHeap 0 2 44100).getD { st := rawStorage, pc := Pc.crashed, iters := 0 }

/-- The session of scenario B (mono input, mono output, 44100 Hz), started. -/
def sessionB : Sys :=
  (boot rawStorage rawHeap 1 1 44100).getD { st := rawStorage, pc := Pc.crashed, iters := 0 }

/-- The scenario A session as created, before `play()`. -/
def createdA : CelPd :=
  (init rawStorage rawHeap 0 2 44100).getD rawStorage

/-- The scenario A session, playing: its thread waits for the first callback. -/
def playingA : Sys :=
  sessionA.settle 7

/-- The scenario A session, paused while its thread waits for a callback. -/
def pausedA : Sys :=
  playingA.step Action.pause

/-- The scenario B session, paused while its thread waits for input. -/
def pausedB : Sys :=
  (sessionB.settle 8).step Action.pause

/-! ## Theorems -/

/-- C1: `close()` is idempotent: closing a closed session gives the same state,
the three object handles are `NULL` after the first call, and the second call
adds no `Destroy` call (indeed no call at all) to the trace. -/
theorem close_idempotent (s : CelPd) :
    close (close s) = close s ∧
    (close s).bqPlayerObject = none ∧
    (close s).mOutputMixObject = none ∧
    (close s).mEngineObject = none ∧
    (close (close s)).trace = (close s).trace ∧
    destroyCalls (close (close s)).trace = destroyCalls (close s).trace := by
  have h : close (close s) = close s ∧ (close s).bqPlayerObject = none ∧
      (close s).mOutputMixObject = none ∧ (close s).mEngineObject = none := by
    rcases s with ⟨eo, ee, om, ro, rr, rq, po, pp, pq, mt, pr, rrun, orr, ir, oi, ob, ii, ib,
      os, is, ic, oc, tr⟩
    cases eo <;> cases om <;> cases po <;> simp [close]
  obtain ⟨h1, h2, h3, h4⟩ := h
  refine ⟨h1, h2, h3, h4, ?_, ?_⟩ <;> rw [h1]

/-! ### Traces grow at the end -/

theorem engineCalls_append (t : Nat) (tr l : List Event) :
    engineCalls t (tr ++ l) = engineCalls t tr ++ engineCalls (t + tr.length) l := by
  induction tr generalizing t with
  | nil => simp [engineCalls]
  | cons a tr ih =>
    have h : t + 1 + tr.length = t + (tr.length + 1) := by omega
    cases a <;> simp [engineCalls, ih, h]

theorem outputSubmissions_append (t : Nat) (tr l : List Event) :
    outputSubmissions t (tr ++ l) =
      outputSubmissions t tr ++ outputSubmissions (t + tr.length) l := by
  induction tr generalizing t with
  | nil => simp [outputSubmissions]
  | cons a tr ih =>
    have h : t + 1 + tr.length = t + (tr.length + 1) := by omega
    cases a <;> simp [outputSubmissions, ih, h]

theorem engineCalls_time_lt (t : Nat) (tr : List Event) (q : Nat × Nat × Nat)
    (h : q ∈ engineCalls t tr) : q.1 < t + tr.length := by
  induction tr generalizing t with
  | nil => simp [engineCalls] at h
  | cons a tr ih =>
    cases a <;> simp only [engineCalls, List.mem_cons] at h
    case pdProcess =>
      rcases h with h | h
      · subst h; simp
      · have h1 := ih _ h
        simp only [List.length_cons]
        omega
    all_goals
      have h1 := ih _ h
      simp only [List.length_cons]
      omega

theorem flip_mod_two (n : Nat) : (n % 2) ^^^ 1 = (n + 1) % 2 := by
  rcases Nat.mod_two_eq_zero_or_one n with h | h
  · have h1 : (n + 1) % 2 = 1 := by omega
    rw [h, h1]; rfl
  · have h1 : (n + 1) % 2 = 0 := by omega
    rw [h, h1]; rfl

/-! ### The invariant is kept by every action -/

theorem Inv.callbackPlayer {y : Sys} (h : Inv y) : Inv (y.step Action.playerCallback) := by
  obtain ⟨h1, h2, h3, h4, h5, h6, h7, h8, h9, h10, h11⟩ := h
  refine ⟨h1, h2, h3, h4, h5, h6, h7, h8, ?_, ?_, ?_⟩ <;>
    simp only [Sys.step, bqPlayerCallback, engineCalls_append, outputSubmissions_append,
      engineCalls, outputSubmissions, List.append_nil] <;> assumption

theorem Inv.callbackRecorder {y : Sys} (h : Inv y) : Inv (y.step Action.recorderCallback) := by
  obtain ⟨h1, h2, h3, h4, h5, h6, h7, h8, h9, h10, h11⟩ := h
  refine ⟨h1, h2, h3, h4, h5, h6, h7, h8, ?_, ?_, ?_⟩ <;>
    simp only [Sys.step, bqRecorderCallback, engineCalls_append, outputSubmissions_append,
      engineCalls, outputSubmissions, List.append_nil] <;> assumption

theorem Inv.pause {y : Sys} (h : Inv y) : Inv (y.step Action.pause) := by
  obtain ⟨h1, h2, h3, h4, h5, h6, h7, h8, h9, h10, h11⟩ := h
  obtain ⟨tid, ht⟩ := Option.ne_none_iff_exists'.mp h4
  obtain ⟨itf, hi⟩ := Option.ne_none_iff_exists'.mp h3
  have hp : cel.pause y.st = some { y.st with
      mPlayerRunning := false
      trace := y.st.trace ++ [Event.threadInterrupt tid, Event.setPlayState itf false] } := by
    simp [cel.pause, ht, hi]
  refine ⟨?_, ?_, ?_, ?_, ?_, ?_, ?_, ?_, ?_, ?_, ?_⟩ <;>
    simp only [Sys.step, hp, engineCalls_append, outputSubmissions_append,
      engineCalls, outputSubmissions, List.append_nil] <;> assumption

theorem getElem?_append_some {α : Type} (l l1 : List α) (i : Nat) (a : α)
    (h : l[i]? = some a) : (l ++ l1)[i]? = some a := by
  have hi : i < l.length := by
    by_contra hn
    rw [List.getElem?_eq_none (by omega)] at h
    cases h
  rw [List.getElem?_append_left hi, h]

theorem Inv.loop {y : Sys} (h : Inv y) : Inv (y.step Action.loop) := by
  obtain ⟨st, pc, n⟩ := y
  obtain ⟨h1, h2, h3, h4, h5, h6, h7, h8, h9, h10, h11⟩ := h
  simp only at h1 h2 h3 h4 h5 h6 h7 h8 h9 h10 h11
  cases pc
  case loopHead =>
    by_cases hr : st.mPlayerRunning = true
    · by_cases hc : 0 < st.mInputChannels
      · have hs : Sys.step ⟨st, Pc.loopHead, n⟩ Action.loop = ⟨st, Pc.recWait, n⟩ := by
          simp [Sys.step, Sys.stepLoop, playerLoopStep, hr, hc]
        rw [hs]
        exact ⟨h1, h2, h3, h4, by simp, fun _ => hc, h7, h8, h9, h10, h11⟩
      · have hs : Sys.step ⟨st, Pc.loopHead, n⟩ Action.loop = ⟨st, Pc.process, n⟩ := by
          simp [Sys.step, Sys.stepLoop, playerLoopStep, hr, hc]
        rw [hs]
        exact ⟨h1, h2, h3, h4, by simp, by simp, h7, h8, h9, h10, h11⟩
    · have hs : Sys.step ⟨st, Pc.loopHead, n⟩ Action.loop = ⟨st, Pc.exited, n⟩ := by
        simp [Sys.step, Sys.stepLoop, playerLoopStep, hr]
      rw [hs]
      exact ⟨h1, h2, h3, h4, by simp, by simp, h7, h8, h9, h10, h11⟩
  case recWait =>
    have hc : 0 < st.mInputChannels := h6 (Or.inl rfl)
    by_cases hw : st.mInputReady = true
    · have hs : Sys.step ⟨st, Pc.recWait, n⟩ Action.loop =
          ⟨{ st with mInputReady := false }, Pc.recEnqueue, n⟩ := by
        simp [Sys.step, Sys.stepLoop, playerLoopStep, enqueueRecorderLocked, enqueueRecorderWaits, hw]
      rw [hs]
      exact ⟨h1, h2, h3, h4, by simp, fun _ => hc, h7, h8, h9, h10, h11⟩
    · have hs : Sys.step ⟨st, Pc.recWait, n⟩ Action.loop = ⟨st, Pc.recWait, n⟩ := by
        simp [Sys.step, Sys.stepLoop, playerLoopStep, enqueueRecorderLocked, enqueueRecorderWaits, hw]
      rw [hs]
      exact ⟨h1, h2, h3, h4, h5, h6, h7, h8, h9, h10, h11⟩
  case recEnqueue =>
    have hc : 0 < st.mInputChannels := h6 (Or.inr rfl)
    obtain ⟨q, hq⟩ := Option.ne_none_iff_exists'.mp (h2 hc)
    have hs : Sys.step ⟨st, Pc.recEnqueue, n⟩ Action.loop =
        ⟨{ st with trace := st.trace ++ [Event.enqueueRecorder st.mInputBufIndex] },
          Pc.process, n⟩ := by
      simp [Sys.step, Sys.stepLoop, playerLoopStep, enqueueRecorderSubmit, hq]
    rw [hs]
    refine ⟨h1, h2, h3, h4, by simp, by simp, h7, h8, ?_, ?_, ?_⟩ <;>
      simp only [engineCalls_append, outputSubmissions_append, engineCalls, outputSubmissions,
        List.append_nil] <;> assumption
  case process =>
    have hs : Sys.step ⟨st, Pc.process, n⟩ Action.loop =
        ⟨processBlock st, Pc.playWait, n⟩ := by
      simp [Sys.step, Sys.stepLoop, playerLoopStep]
    rw [hs]
    refine ⟨h1, h2, h3, h4, by simp, by simp, h7, h8, ?_, ?_, ?_⟩
    · simp only [processBlock, engineCalls_append, engineCalls, List.map_append, h9, h7, h8]
      simp [Pc.written, List.range_succ]
    · simp only [processBlock, outputSubmissions_append, outputSubmissions, List.append_nil]
      exact h10
    · intro N p hp
      simp only [processBlock, outputSubmissions_append, outputSubmissions,
        List.append_nil] at hp
      obtain ⟨q, hq, hlt⟩ := h11 N p hp
      refine ⟨q, ?_, hlt⟩
      simp only [processBlock, engineCalls_append]
      exact getElem?_append_some _ _ _ _ hq
  case playWait =>
    by_cases hw : enqueuePlayerWaits st = true
    · have hs : Sys.step ⟨st, Pc.playWait, n⟩ Action.loop = ⟨st, Pc.playWait, n⟩ := by
        simp [Sys.step, Sys.stepLoop, playerLoopStep, enqueuePlayerLocked, hw]
      rw [hs]
      exact ⟨h1, h2, h3, h4, h5, h6, h7, h8, h9, h10, h11⟩
    · have hs : Sys.step ⟨st, Pc.playWait, n⟩ Action.loop =
          ⟨{ st with mOutputReady := false }, Pc.playEnqueue, n⟩ := by
        simp [Sys.step, Sys.stepLoop, playerLoopStep, enqueuePlayerLocked, hw]
      rw [hs]
      exact ⟨h1, h2, h3, h4, by simp, by simp, h7, h8, h9, h10, h11⟩
  case playEnqueue =>
    obtain ⟨q, hq⟩ := Option.ne_none_iff_exists'.mp h1
    have hs : Sys.step ⟨st, Pc.playEnqueue, n⟩ Action.loop =
        ⟨{ st with trace := st.trace ++ [Event.enqueuePlayer st.mOutputBufIndex] },
          Pc.flip, n⟩ := by
      simp [Sys.step, Sys.stepLoop, playerLoopStep, enqueuePlayerSubmit, hq]
    rw [hs]
    have hlenS : (outputSubmissions 0 st.trace).length = n := by
      have := congrArg List.length h10
      simpa [Pc.submitted] using this
    have hlenC : (engineCalls 0 st.trace).length = n + 1 := by
      have := congrArg List.length h9
      simpa [Pc.written] using this
    refine ⟨h1, h2, h3, h4, by simp, by simp, h7, h8, ?_, ?_, ?_⟩
    · simp only [engineCalls_append, engineCalls, List.append_nil]
      exact h9
    · simp only [outputSubmissions_append, outputSubmissions, List.map_append, h10, h8]
      simp [Pc.submitted, List.range_succ]
    · intro N p hp
      simp only [outputSubmissions_append, outputSubmissions] at hp
      simp only [engineCalls_append, engineCalls, List.append_nil]
      by_cases hN : N < (outputSubmissions 0 st.trace).length
      · rw [List.getElem?_append_left hN] at hp
        exact h11 N p hp
      · have hN1 : N = n := by
          by_contra hne
          rw [List.getElem?_eq_none (by simp; omega)] at hp
          cases hp
        subst hN1
        have hlt : N < (engineCalls 0 st.trace).length := by omega
        refine ⟨(engineCalls 0 st.trace)[N], List.getElem?_eq_getElem hlt, ?_⟩
        have hmem : (engineCalls 0 st.trace)[N] ∈ engineCalls 0 st.trace :=
          List.getElem_mem hlt
        have ht := engineCalls_time_lt 0 st.trace _ hmem
        rw [List.getElem?_append_right (by omega)] at hp
        simp [hlenS] at hp
        rw [← hp]
        simpa using ht
  case flip =>
    have hs : Sys.step ⟨st, Pc.flip, n⟩ Action.loop =
        ⟨flipIndices st, Pc.loopHead, n + 1⟩ := by
      simp [Sys.step, Sys.stepLoop, playerLoopStep]
    rw [hs]
    refine ⟨h1, h2, h3, h4, by simp, by simp, ?_, ?_, h9, h10, h11⟩
    · simp only [flipIndices, h7, flip_mod_two]
    · simp only [flipIndices, h8, flip_mod_two]
  case exited =>
    have hs : Sys.step ⟨st, Pc.exited, n⟩ Action.loop = ⟨st, Pc.exited, n⟩ := by
      simp [Sys.step, Sys.stepLoop, playerLoopStep]
    rw [hs]
    exact ⟨h1, h2, h3, h4, h5, h6, h7, h8, h9, h10, h11⟩
  case crashed => exact absurd rfl h5

theorem Inv.keptByStep {y : Sys} (h : Inv y) (a : Action) : Inv (y.step a) := by
  cases a
  · exact h.loop
  · exact h.callbackPlayer
  · exact h.callbackRecorder
  · exact h.pause

theorem Inv.keptByRun {y : Sys} (h : Inv y) (sched : List Action) : Inv (y.run sched) := by
  induction sched generalizing y with
  | nil => exact h
  | cons a sched ih => exact ih (h.keptByStep a)

/-! ### The state `boot` produces -/

theorem toInt32_zero : toInt32 0 = 0 := by decide

theorem boot_inv {raw : CelPd} {heap : Nat → Int} {i o r : Int} {y : Sys}
    (h : boot raw heap i o r = some y) : Inv y := by
  by_cases hr : slSampleRate r = 4294967295 <;>
    by_cases ho : toInt32 (kBufferSamples * o) < 0 <;>
    by_cases hn : toInt32 (kBufferSamples * i) < 0 <;>
    by_cases hi : i = 0 <;>
    simp [boot, init, ctor, initSL, initInput, initOutput, newSamples, play, computeAudio,
      hi, hr, ho, hn, toInt32_zero] at h
  all_goals (subst h; constructor <;> simp [engineCalls, outputSubmissions, Pc.written, Pc.submitted])
  all_goals (split_ifs <;> simp [engineCalls, outputSubmissions])

theorem sessionA_boot : boot rawStorage rawHeap 0 2 44100 = some sessionA := by
  rfl

theorem sessionB_boot : boot rawStorage rawHeap 1 1 44100 = some sessionB := by
  rfl

theorem range_map_getElem? {α : Type} (f : Nat → α) (m N : Nat) (a : α)
    (h : ((List.range m).map f)[N]? = some a) : a = f N := by
  by_cases hN : N < m
  · rw [List.getElem?_eq_getElem (by simpa using hN)] at h
    simpa using h.symm
  · rw [List.getElem?_eq_none (by simpa using hN)] at h
    cases h

/-- C8: both buffer indices are 0 when the session starts and, under every
interleaving of thread steps, callbacks and `pause()`, equal `n mod 2` after
`n` completed iterations of the loop body (so they are 0 or 1).  The flip of an
iteration follows its engine invocation and its output submission: the engine
calls and the output submissions made so far are those of the completed
iterations plus the one in progress, and the `k`-th of them (from 0) uses
block `k mod 2`. -/
theorem buffer_indices_alternate (raw : CelPd) (heap : Nat → Int) (i o r : Int) (y0 : Sys)
    (hboot : boot raw heap i o r = some y0) (sched : List Action) :
    (y0.iters = 0 ∧ y0.st.mInputBufIndex = 0 ∧ y0.st.mOutputBufIndex = 0) ∧
    (y0.run sched).st.mInputBufIndex = (y0.run sched).iters % 2 ∧
    (y0.run sched).st.mOutputBufIndex = (y0.run sched).iters % 2 ∧
    (y0.run sched).st.mInputBufIndex < 2 ∧
    (y0.run sched).st.mOutputBufIndex < 2 ∧
    (engineCalls 0 (y0.run sched).st.trace).map Prod.snd =
      (List.range ((y0.run sched).iters + (y0.run sched).pc.written)).map
        (fun k => (k % 2, k % 2)) ∧
    (outputSubmissions 0 (y0.run sched).st.trace).map Prod.snd =
      (List.range ((y0.run sched).iters + (y0.run sched).pc.submitted)).map
        (fun k => k % 2) := by
  have h0 := boot_inv hboot
  have hi := h0.keptByRun sched
  have hstart : y0.iters = 0 := by
    simp only [boot, Option.bind_eq_some, Option.map_eq_some'] at hboot
    obtain ⟨s0, _, s1, _, rfl⟩ := hboot
    rfl
  refine ⟨⟨hstart, ?_, ?_⟩, hi.inIdx, hi.outIdx, ?_, ?_, hi.calls, hi.submits⟩
  · rw [h0.inIdx, hstart]
  · rw [h0.outIdx, hstart]
  · rw [hi.inIdx]; exact Nat.mod_lt _ (by decide)
  · rw [hi.outIdx]; exact Nat.mod_lt _ (by decide)

/-- Witness of C8 on the scenario A session, after one full iteration. -/
theorem buffer_indices_alternate_witness :
    (sessionA.run (List.replicate 5 Action.loop)).iters = 1 ∧
    (sessionA.run (List.replicate 5 Action.loop)).st.mOutputBufIndex =
      (sessionA.run (List.replicate 5 Action.loop)).iters % 2 :=
  ⟨by decide,
   (buffer_indices_alternate rawStorage rawHeap 0 2 44100 sessionA sessionA_boot
      (List.replicate 5 Action.loop)).2.2.1⟩

/-- C9: under every interleaving of thread steps, callbacks and `pause()`, when
the trace holds an `N`-th output submission (from 0), made at time `t` with
block `b`, it holds an `N`-th engine invocation, made at an earlier time, and
that invocation wrote block `b`. -/
theorem submission_follows_engine_call (raw : CelPd) (heap : Nat → Int) (i o r : Int)
    (y0 : Sys) (hboot : boot raw heap i o r = some y0) (sched : List Action)
    (N t b : Nat)
    (hsub : (outputSubmissions 0 (y0.run sched).st.trace)[N]? = some (t, b)) :
    ∃ t1 inBlock, (engineCalls 0 (y0.run sched).st.trace)[N]? = some (t1, inBlock, b) ∧
      t1 < t := by
  have hi := (boot_inv hboot).keptByRun sched
  obtain ⟨q, hq, hlt⟩ := hi.order N (t, b) hsub
  obtain ⟨t1, inB, outB⟩ := q
  have hb : b = N % 2 := by
    have h1 : ((outputSubmissions 0 (y0.run sched).st.trace).map Prod.snd)[N]? = some b := by
      rw [List.getElem?_map, hsub]; rfl
    rw [hi.submits] at h1
    exact range_map_getElem? (fun k => k % 2) _ N b h1
  have hq2 : (inB, outB) = (N % 2, N % 2) := by
    have h1 : ((engineCalls 0 (y0.run sched).st.trace).map Prod.snd)[N]? =
        some (inB, outB) := by
      rw [List.getElem?_map, hq]; rfl
    rw [hi.calls] at h1
    exact range_map_getElem? (fun k => (k % 2, k % 2)) _ N (inB, outB) h1
  have hout : outB = b := by
    rw [hb]; exact (Prod.mk.inj hq2).2
  subst hout
  exact ⟨t1, inB, hq, hlt⟩

/-- Witness of C9 on the scenario A session: the submission of the first
iteration. -/
theorem submission_follows_engine_call_witness :
    (outputSubmissions 0 (sessionA.run (List.replicate 4 Action.loop)).st.trace)[0]? =
      some (17, 0) ∧
    ∃ t1 inBlock,
      (engineCalls 0 (sessionA.run (List.replicate 4 Action.loop)).st.trace)[0]? =
        some (t1, inBlock, 0) ∧ t1 < 17 :=
  ⟨by decide,
   submission_follows_engine_call rawStorage rawHeap 0 2 44100 sessionA sessionA_boot
     (List.replicate 4 Action.loop) 0 17 0 (by decide)⟩

/-! ### A session without input channels -/

theorem noInputCall_append {tr l : List Event} (h : ∀ e ∈ tr, e.isInputCall = false)
    (hl : ∀ e ∈ l, e.isInputCall = false) : ∀ e ∈ tr ++ l, e.isInputCall = false := by
  intro e he
  rcases List.mem_append.mp he with h1 | h1
  · exact h e h1
  · exact hl e h1

theorem InputOff.offAfterStep {y : Sys} (h : InputOff y) (a : Action) :
    InputOff (y.step a) := by
  obtain ⟨st, pc, n⟩ := y
  obtain ⟨hc, hw, hs, ht⟩ := h
  simp only at hc hw hs ht
  have hc1 : ¬ 0 < st.mInputChannels := by rw [hc]; decide
  cases a
  · cases pc
    case loopHead =>
      cases hr : st.mPlayerRunning
      · have e : Sys.step ⟨st, Pc.loopHead, n⟩ Action.loop = ⟨st, Pc.exited, n⟩ := by
          simp [Sys.step, Sys.stepLoop, playerLoopStep, hr]
        rw [e]
        exact ⟨hc, by simp, by simp, ht⟩
      · have e : Sys.step ⟨st, Pc.loopHead, n⟩ Action.loop = ⟨st, Pc.process, n⟩ := by
          simp [Sys.step, Sys.stepLoop, playerLoopStep, hr, hc1]
        rw [e]
        exact ⟨hc, by simp, by simp, ht⟩
    case recWait => exact absurd rfl hw
    case recEnqueue => exact absurd rfl hs
    case process =>
      have e : Sys.step ⟨st, Pc.process, n⟩ Action.loop =
          ⟨processBlock st, Pc.playWait, n⟩ := by
        simp [Sys.step, Sys.stepLoop, playerLoopStep]
      rw [e]
      exact ⟨hc, by simp, by simp,
        noInputCall_append ht (by simp [Event.isInputCall])⟩
    case playWait =>
      cases hwait : enqueuePlayerWaits st
      · have e : Sys.step ⟨st, Pc.playWait, n⟩ Action.loop =
            ⟨{ st with mOutputReady := false }, Pc.playEnqueue, n⟩ := by
          simp [Sys.step, Sys.stepLoop, playerLoopStep, enqueuePlayerLocked, hwait]
        rw [e]
        exact ⟨hc, by simp, by simp, ht⟩
      · have e : Sys.step ⟨st, Pc.playWait, n⟩ Action.loop = ⟨st, Pc.playWait, n⟩ := by
          simp [Sys.step, Sys.stepLoop, playerLoopStep, enqueuePlayerLocked, hwait]
        rw [e]
        exact ⟨hc, hw, hs, ht⟩
    case playEnqueue =>
      cases hq : st.bqPlayerBufferQueue
      · have e : Sys.step ⟨st, Pc.playEnqueue, n⟩ Action.loop = ⟨st, Pc.crashed, n⟩ := by
          simp [Sys.step, Sys.stepLoop, playerLoopStep, enqueuePlayerSubmit, hq]
        rw [e]
        exact ⟨hc, by simp, by simp, ht⟩
      · have e : Sys.step ⟨st, Pc.playEnqueue, n⟩ Action.loop =
            ⟨{ st with trace := st.trace ++ [Event.enqueuePlayer st.mOutputBufIndex] },
              Pc.flip, n⟩ := by
          simp [Sys.step, Sys.stepLoop, playerLoopStep, enqueuePlayerSubmit, hq]
        rw [e]
        exact ⟨hc, by simp, by simp,
          noInputCall_append ht (by simp [Event.isInputCall])⟩
    case flip =>
      have e : Sys.step ⟨st, Pc.flip, n⟩ Action.loop =
          ⟨flipIndices st, Pc.loopHead, n + 1⟩ := by
        simp [Sys.step, Sys.stepLoop, playerLoopStep]
      rw [e]
      exact ⟨hc, by simp, by simp, ht⟩
    case exited =>
      have e : Sys.step ⟨st, Pc.exited, n⟩ Action.loop = ⟨st, Pc.exited, n⟩ := by
        simp [Sys.step, Sys.stepLoop, playerLoopStep]
      rw [e]
      exact ⟨hc, hw, hs, ht⟩
    case crashed =>
      have e : Sys.step ⟨st, Pc.crashed, n⟩ Action.loop = ⟨st, Pc.crashed, n⟩ := by
        simp [Sys.step, Sys.stepLoop, playerLoopStep]
      rw [e]
      exact ⟨hc, hw, hs, ht⟩
  · exact ⟨hc, hw, hs, noInputCall_append ht (by simp [Event.isInputCall])⟩
  · exact ⟨hc, hw, hs, noInputCall_append ht (by simp [Event.isInputCall])⟩
  · cases hp : pause st with
    | none =>
      have e : Sys.step ⟨st, pc, n⟩ Action.pause = ⟨st, Pc.crashed, n⟩ := by
        simp [Sys.step, hp]
      rw [e]
      exact ⟨hc, by simp, by simp, ht⟩
    | some s1 =>
      have e : Sys.step ⟨st, pc, n⟩ Action.pause = ⟨s1, pc, n⟩ := by
        simp [Sys.step, hp]
      rw [e]
      unfold pause at hp
      split at hp
      · cases hp
        exact ⟨hc, hw, hs, noInputCall_append ht (by simp [Event.isInputCall])⟩
      · cases hp

theorem InputOff.offAfterRun {y : Sys} (h : InputOff y) (sched : List Action) :
    InputOff (y.run sched) := by
  induction sched generalizing y with
  | nil => exact h
  | cons a sched ih => exact ih (h.offAfterStep a)

theorem boot_inputOff {raw : CelPd} {heap : Nat → Int} {o r : Int} {y : Sys}
    (h : boot raw heap 0 o r = some y) : InputOff y := by
  by_cases hr : slSampleRate r = 4294967295 <;>
    by_cases ho : toInt32 (kBufferSamples * o) < 0 <;>
    simp [boot, init, ctor, initSL, initInput, initOutput, newSamples, play, computeAudio,
      hr, ho, toInt32_zero] at h
  subst h
  constructor <;> simp [Event.isInputCall]

theorem loop_keeps_inputReady (y : Sys) (h : y.pc ≠ Pc.recWait) :
    (y.step Action.loop).st.mInputReady = y.st.mInputReady := by
  obtain ⟨st, pc, n⟩ := y
  cases pc
  case recWait => exact absurd rfl h
  case loopHead =>
    cases hr : st.mPlayerRunning <;>
      simp [Sys.step, Sys.stepLoop, playerLoopStep, hr]
    split <;> rfl
  case recEnqueue =>
    cases hq : st.bqRecorderBufferQueue <;>
      simp [Sys.step, Sys.stepLoop, playerLoopStep, enqueueRecorderSubmit, hq]
  case playWait =>
    cases hw : enqueuePlayerWaits st <;>
      simp [Sys.step, Sys.stepLoop, playerLoopStep, enqueuePlayerLocked, hw]
  case playEnqueue =>
    cases hq : st.bqPlayerBufferQueue <;>
      simp [Sys.step, Sys.stepLoop, playerLoopStep, enqueuePlayerSubmit, hq]
  all_goals simp [Sys.step, Sys.stepLoop, playerLoopStep, processBlock, flipIndices]

/-- C10: a session created with input channel count 0 has its input path off.
Under every interleaving of thread steps, callbacks and `pause()`: the thread
is never at the input wait nor at the input submission, a thread step leaves
`mInputReady` as it is, no buffer is submitted to the recorder queue, and
setup has created no recorder and registered no recorder callback. -/
theorem input_path_disabled (raw : CelPd) (heap : Nat → Int) (o r : Int) (y0 : Sys)
    (hboot : boot raw heap 0 o r = some y0) (sched : List Action) :
    (y0.run sched).pc ≠ Pc.recWait ∧
    (y0.run sched).pc ≠ Pc.recEnqueue ∧
    ((y0.run sched).step Action.loop).st.mInputReady = (y0.run sched).st.mInputReady ∧
    (∀ b, Event.enqueueRecorder b ∉ (y0.run sched).st.trace) ∧
    (∀ c rate, Event.createAudioRecorder c rate ∉ (y0.run sched).st.trace) ∧
    Event.registerRecorderCallback ∉ (y0.run sched).st.trace := by
  have h := (boot_inputOff hboot).offAfterRun sched
  refine ⟨h.notWaiting, h.notSubmitting, loop_keeps_inputReady _ h.notWaiting, ?_, ?_, ?_⟩
  · intro b hb
    have := h.noCall _ hb
    simp [Event.isInputCall] at this
  · intro c rate hb
    have := h.noCall _ hb
    simp [Event.isInputCall] at this
  · intro hb
    have := h.noCall _ hb
    simp [Event.isInputCall] at this

/-- Witness of C10 on the scenario A session, after its first seven steps. -/
theorem input_path_disabled_witness :
    boot rawStorage rawHeap 0 2 44100 = some sessionA ∧
    (sessionA.run (List.replicate 7 Action.loop)).pc ≠ Pc.recWait ∧
    (∀ b, Event.enqueueRecorder b ∉ (sessionA.run (List.replicate 7 Action.loop)).st.trace) :=
  ⟨sessionA_boot,
   (input_path_disabled rawStorage rawHeap 2 44100 sessionA sessionA_boot
      (List.replicate 7 Action.loop)).1,
   (input_path_disabled rawStorage rawHeap 2 44100 sessionA sessionA_boot
      (List.replicate 7 Action.loop)).2.2.2.1⟩

/-! ### Running the thread until it waits -/

theorem settle_step {y y1 : Sys} (fuel : Nat) (hfuel : 0 < fuel)
    (h : y.stepLoop = some y1) : y.settle fuel = y1.settle (fuel - 1) := by
  obtain ⟨f, rfl⟩ : ∃ f, fuel = f + 1 := ⟨fuel - 1, by omega⟩
  simp [Sys.settle, h]

theorem settle_blocked {y : Sys} (fuel : Nat) (h : y.stepLoop = none) :
    y.settle fuel = y := by
  cases fuel <;> simp [Sys.settle, h]

theorem stepLoop_iters {y y1 : Sys} (h : y.stepLoop = some y1) : y.iters ≤ y1.iters := by
  simp only [Sys.stepLoop, Option.map_eq_some'] at h
  obtain ⟨r, _, rfl⟩ := h
  simp only
  split <;> omega

theorem settle_iters (fuel : Nat) (y : Sys) : y.iters ≤ (y.settle fuel).iters := by
  induction fuel generalizing y with
  | zero => simp [Sys.settle]
  | succ fuel ih =>
    cases h : y.stepLoop with
    | none => simp [Sys.settle, h]
    | some y1 =>
      rw [settle_step (fuel + 1) (by omega) h]
      exact le_trans (stepLoop_iters h) (ih y1)

theorem stepLoop_head_input {st : CelPd} (n : Nat) (hr : st.mPlayerRunning = true)
    (hc : 0 < st.mInputChannels) :
    Sys.stepLoop ⟨st, Pc.loopHead, n⟩ = some ⟨st, Pc.recWait, n⟩ := by
  simp [Sys.stepLoop, playerLoopStep, hr, hc]

theorem stepLoop_head_noInput {st : CelPd} (n : Nat) (hr : st.mPlayerRunning = true)
    (hc : ¬ 0 < st.mInputChannels) :
    Sys.stepLoop ⟨st, Pc.loopHead, n⟩ = some ⟨st, Pc.process, n⟩ := by
  simp [Sys.stepLoop, playerLoopStep, hr, hc]

theorem stepLoop_head_stopped {st : CelPd} (n : Nat) (hr : st.mPlayerRunning = false) :
    Sys.stepLoop ⟨st, Pc.loopHead, n⟩ = some ⟨st, Pc.exited, n⟩ := by
  simp [Sys.stepLoop, playerLoopStep, hr]

theorem stepLoop_recWait {st : CelPd} (n : Nat) (hf : st.mInputReady = true) :
    Sys.stepLoop ⟨st, Pc.recWait, n⟩ =
      some ⟨{ st with mInputReady := false }, Pc.recEnqueue, n⟩ := by
  simp [Sys.stepLoop, playerLoopStep, enqueueRecorderLocked, enqueueRecorderWaits, hf]

theorem stepLoop_recEnqueue {st : CelPd} (n : Nat) (hq : st.bqRecorderBufferQueue ≠ none) :
    Sys.stepLoop ⟨st, Pc.recEnqueue, n⟩ =
      some ⟨{ st with trace := st.trace ++ [Event.enqueueRecorder st.mInputBufIndex] },
        Pc.process, n⟩ := by
  obtain ⟨q, hq⟩ := Option.ne_none_iff_exists'.mp hq
  simp [Sys.stepLoop, playerLoopStep, enqueueRecorderSubmit, hq]

theorem stepLoop_process (st : CelPd) (n : Nat) :
    Sys.stepLoop ⟨st, Pc.process, n⟩ = some ⟨processBlock st, Pc.playWait, n⟩ := by
  simp [Sys.stepLoop, playerLoopStep]

theorem stepLoop_playWait {st : CelPd} (n : Nat) (hw : enqueuePlayerWaits st = false) :
    Sys.stepLoop ⟨st, Pc.playWait, n⟩ =
      some ⟨{ st with mOutputReady := false }, Pc.playEnqueue, n⟩ := by
  simp [Sys.stepLoop, playerLoopStep, enqueuePlayerLocked, hw]

theorem stepLoop_playWait_blocked {st : CelPd} (n : Nat) (hw : enqueuePlayerWaits st = true) :
    Sys.stepLoop ⟨st, Pc.playWait, n⟩ = none := by
  simp [Sys.stepLoop, playerLoopStep, enqueuePlayerLocked, hw]

theorem stepLoop_playEnqueue {st : CelPd} (n : Nat) (hq : st.bqPlayerBufferQueue ≠ none) :
    Sys.stepLoop ⟨st, Pc.playEnqueue, n⟩ =
      some ⟨{ st with trace := st.trace ++ [Event.enqueuePlayer st.mOutputBufIndex] },
        Pc.flip, n⟩ := by
  obtain ⟨q, hq⟩ := Option.ne_none_iff_exists'.mp hq
  simp [Sys.stepLoop, playerLoopStep, enqueuePlayerSubmit, hq]

theorem stepLoop_flip (st : CelPd) (n : Nat) :
    Sys.stepLoop ⟨st, Pc.flip, n⟩ = some ⟨flipIndices st, Pc.loopHead, n + 1⟩ := by
  simp [Sys.stepLoop, playerLoopStep]

/-- From the output wait with the flag set, the thread submits, flips, invokes
the engine for the next block and waits again. -/
theorem settle_from_wait {st : CelPd} (n fuel : Nat) (hfuel : 5 ≤ fuel)
    (hf : st.mOutputReady = true) (hr : st.mPlayerRunning = true)
    (hc : ¬ 0 < st.mInputChannels) (hq : st.bqPlayerBufferQueue ≠ none) :
    Waiting (Sys.settle fuel ⟨st, Pc.playWait, n⟩)
      (processCalls st.trace + 1) (playerSubmits st.trace + 1) := by
  have e1 : Sys.stepLoop ⟨st, Pc.playWait, n⟩ =
      some ⟨{ st with mOutputReady := false }, Pc.playEnqueue, n⟩ :=
    stepLoop_playWait n (by simp [enqueuePlayerWaits, hf])
  have e2 : Sys.stepLoop ⟨{ st with mOutputReady := false }, Pc.playEnqueue, n⟩ =
      some ⟨{ st with
          mOutputReady := false
          trace := st.trace ++ [Event.enqueuePlayer st.mOutputBufIndex] }, Pc.flip, n⟩ :=
    stepLoop_playEnqueue n hq
  have e3 := stepLoop_flip { st with
      mOutputReady := false
      trace := st.trace ++ [Event.enqueuePlayer st.mOutputBufIndex] } n
  have e4 := @stepLoop_head_noInput (flipIndices { st with
      mOutputReady := false
      trace := st.trace ++ [Event.enqueuePlayer st.mOutputBufIndex] }) (n + 1) hr hc
  have e5 := stepLoop_process (flipIndices { st with
      mOutputReady := false
      trace := st.trace ++ [Event.enqueuePlayer st.mOutputBufIndex] }) (n + 1)
  have e6 := @stepLoop_playWait_blocked (processBlock (flipIndices { st with
      mOutputReady := false
      trace := st.trace ++ [Event.enqueuePlayer st.mOutputBufIndex] })) (n + 1)
    (by simp [enqueuePlayerWaits, processBlock, flipIndices, hr])
  rw [settle_step fuel (by omega) e1, settle_step (fuel - 1) (by omega) e2,
    settle_step (fuel - 1 - 1) (by omega) e3, settle_step (fuel - 1 - 1 - 1) (by omega) e4,
    settle_step (fuel - 1 - 1 - 1 - 1) (by omega) e5, settle_blocked _ e6]
  constructor <;>
    simp [processBlock, flipIndices, processCalls, playerSubmits, engineCalls_append,
      outputSubmissions_append, engineCalls, outputSubmissions, hr, hc, hq]

/-- From the head of the loop with the flag set, the thread completes one
iteration, invokes the engine for the next block and waits. -/
theorem settle_from_head {st : CelPd} (n fuel : Nat) (hfuel : 7 ≤ fuel)
    (hf : st.mOutputReady = true) (hr : st.mPlayerRunning = true)
    (hc : ¬ 0 < st.mInputChannels) (hq : st.bqPlayerBufferQueue ≠ none) :
    Waiting (Sys.settle fuel ⟨st, Pc.loopHead, n⟩)
      (processCalls st.trace + 2) (playerSubmits st.trace + 1) := by
  rw [settle_step fuel (by omega) (stepLoop_head_noInput n hr hc),
    settle_step (fuel - 1) (by omega) (stepLoop_process _ n)]
  have h := @settle_from_wait (processBlock st) n (fuel - 1 - 1) (by omega) hf hr hc hq
  have hp : processCalls (processBlock st).trace = processCalls st.trace + 1 := by
    simp [processBlock, processCalls, engineCalls_append, engineCalls]
  have hs : playerSubmits (processBlock st).trace = playerSubmits st.trace := by
    simp [processBlock, playerSubmits, outputSubmissions_append, outputSubmissions]
  rw [hp, hs] at h
  exact h

/-! ### Scenario A -/

theorem boot_start {raw : CelPd} {heap : Nat → Int} {i o r : Int} {y : Sys}
    (h : boot raw heap i o r = some y) :
    y.pc = Pc.loopHead ∧ y.iters = 0 ∧ y.st.mOutputReady = true ∧ y.st.mInputReady = true ∧
    y.st.mPlayerRunning = true ∧ y.st.mInputChannels = i ∧
    y.st.bqPlayerBufferQueue ≠ none ∧ processCalls y.st.trace = 0 ∧
    playerSubmits y.st.trace = 0 := by
  have hinv := boot_inv h
  have hc := congrArg List.length hinv.calls
  have hs := congrArg List.length hinv.submits
  simp only [boot, init, ctor, Option.bind_eq_some, Option.map_eq_some'] at h
  obtain ⟨s0, ⟨s1, hs1, o0, ho0, i0, hi0, o1, ho1, i1, hi1, hs0⟩, s2, hplay, rfl⟩ := h
  have hch : s1.mInputChannels = i := by
    unfold initSL at hs1
    split at hs1
    · simp only [initInput, initOutput, Option.bind_eq_some] at hs1
      obtain ⟨s3, h3, h4⟩ := hs1
      split at h3
      · cases h3
      · split at h4
        · cases h4
        · cases h3; cases h4; rfl
    · simp only [initOutput] at hs1
      split at hs1
      · cases hs1
      · cases hs1; rfl
  unfold play at hplay
  split at hplay
  · cases hplay
  · cases hplay
    cases hs0
    simp only [List.length_map, List.length_range, Pc.written, Pc.submitted] at hc hs
    exact ⟨rfl, rfl, rfl, rfl, rfl, hch, hinv.playerQueue, hc, hs⟩

theorem boot_scenarioA (raw : CelPd) (heap : Nat → Int) :
    ∃ y0, boot raw heap 0 2 44100 = some y0 := by
  have h1 : slSampleRate 44100 ≠ 4294967295 := by decide
  have h2 : ¬ toInt32 (kBufferSamples * 2) < 0 := by decide
  simp [boot, init, ctor, initSL, initOutput, newSamples, play, computeAudio, h1, h2,
    toInt32_zero]

theorem scenarioA_waiting {y0 : Sys} (fuel : Nat) (hfuel : 7 ≤ fuel)
    (hpc : y0.pc = Pc.loopHead) (hf : y0.st.mOutputReady = true)
    (hr : y0.st.mPlayerRunning = true) (hc : ¬ 0 < y0.st.mInputChannels)
    (hq : y0.st.bqPlayerBufferQueue ≠ none) (n : Nat) :
    Waiting (scenarioA fuel y0 n)
      (processCalls y0.st.trace + n + 2) (playerSubmits y0.st.trace + n + 1) := by
  induction n with
  | zero =>
    obtain ⟨st, pc, k⟩ := y0
    simp only at hpc hf hr hc hq
    subst hpc
    exact settle_from_head k fuel hfuel hf hr hc hq
  | succ n ih =>
    show Waiting (((scenarioA fuel y0 n).step Action.playerCallback).settle fuel) _ _
    generalize scenarioA fuel y0 n = y at ih ⊢
    obtain ⟨st, pc, k⟩ := y
    obtain ⟨h1, h2, h3, h4, h5, h6, h7⟩ := ih
    simp only at h1 h2 h3 h4 h5 h6 h7
    subst h1
    have h := @settle_from_wait (bqPlayerCallback st) k fuel (by omega) rfl h3 h4 h5
    have hp : processCalls (bqPlayerCallback st).trace = processCalls st.trace := by
      simp [bqPlayerCallback, processCalls, engineCalls_append, engineCalls]
    have hs : playerSubmits (bqPlayerCallback st).trace = playerSubmits st.trace := by
      simp [bqPlayerCallback, playerSubmits, outputSubmissions_append, outputSubmissions]
    rw [hp, hs, h6, h7] at h
    have e1 : processCalls y0.st.trace + (n + 1) + 2 = processCalls y0.st.trace + n + 2 + 1 := by
      omega
    have e2 : playerSubmits y0.st.trace + (n + 1) + 1 = playerSubmits y0.st.trace + n + 1 + 1 := by
      omega
    rw [e1, e2]
    exact h

/-- C7, as the code has it: in scenario A (no input, two output channels,
44100 Hz), with the thread running until it waits after `play()` and after
each callback, the thread has made `n + 2` engine invocations and `n + 1`
output submissions after `n` callbacks, and waits for the next one: 12 and 11
after 10 callbacks, for every amount of fuel that lets it reach its wait. -/
theorem scenarioA_counts (raw : CelPd) (heap : Nat → Int) (fuel : Nat) (hfuel : 7 ≤ fuel) :
    ∃ y0, boot raw heap 0 2 44100 = some y0 ∧
      processCalls (scenarioA fuel y0 10).st.trace = 12 ∧
      playerSubmits (scenarioA fuel y0 10).st.trace = 11 ∧
      (scenarioA fuel y0 10).stepLoop = none ∧
      ∀ n, processCalls (scenarioA fuel y0 n).st.trace = n + 2 ∧
        playerSubmits (scenarioA fuel y0 n).st.trace = n + 1 ∧
        (scenarioA fuel y0 n).pc = Pc.playWait := by
  obtain ⟨y0, hy0⟩ := boot_scenarioA raw heap
  obtain ⟨hpc, _, hf, _, hr, hc, hq, hp, hs⟩ := boot_start hy0
  have hc1 : ¬ 0 < y0.st.mInputChannels := by rw [hc]; decide
  have hw := scenarioA_waiting fuel hfuel hpc hf hr hc1 hq
  rw [hp, hs] at hw
  have hall : ∀ n, processCalls (scenarioA fuel y0 n).st.trace = n + 2 ∧
      playerSubmits (scenarioA fuel y0 n).st.trace = n + 1 ∧
      (scenarioA fuel y0 n).pc = Pc.playWait := by
    intro n
    have h := hw n
    exact ⟨by rw [h.calls]; omega, by rw [h.submits]; omega, h.atWait⟩
  refine ⟨y0, hy0, (hall 10).1, (hall 10).2.1, ?_, hall⟩
  have h := hw 10
  generalize scenarioA fuel y0 10 = y at h
  obtain ⟨st, pc, k⟩ := y
  obtain ⟨h1, h2, h3, _, _, _, _⟩ := h
  simp only at h1 h2 h3
  subst h1
  exact stepLoop_playWait_blocked k (by simp [enqueuePlayerWaits, h2, h3])

/-- Witness of the amended C7, with fuel 7. -/
theorem scenarioA_counts_witness :
    7 ≤ 7 ∧
    ∃ y0, boot rawStorage rawHeap 0 2 44100 = some y0 ∧
      processCalls (scenarioA 7 y0 10).st.trace = 12 ∧
      playerSubmits (scenarioA 7 y0 10).st.trace = 11 ∧
      (scenarioA 7 y0 10).stepLoop = none ∧
      ∀ n, processCalls (scenarioA 7 y0 n).st.trace = n + 2 ∧
        playerSubmits (scenarioA 7 y0 n).st.trace = n + 1 ∧
        (scenarioA 7 y0 n).pc = Pc.playWait :=
  ⟨by decide, scenarioA_counts rawStorage rawHeap 7 (by decide)⟩

/-- C7 fails as stated: in scenario A the counts after 10 callbacks are 12
engine invocations and 11 output submissions (11 and 10 when the thread is
first scheduled after the first callback), never 10 and 10. -/
theorem scenarioA_not_ten_and_ten :
    boot rawStorage rawHeap 0 2 44100 = some sessionA ∧
    ¬ (processCalls (scenarioA 16 sessionA 10).st.trace = 10 ∧
       playerSubmits (scenarioA 16 sessionA 10).st.trace = 10) ∧
    processCalls (scenarioA 16 sessionA 10).st.trace = 12 ∧
    playerSubmits (scenarioA 16 sessionA 10).st.trace = 11 ∧
    (scenarioA 16 sessionA 10).stepLoop = none ∧
    processCalls (scenarioALate 16 sessionA 10).st.trace = 11 ∧
    playerSubmits (scenarioALate 16 sessionA 10).st.trace = 10 ∧
    (scenarioALate 16 sessionA 10).stepLoop = none := by
  refine ⟨sessionA_boot, ?_, ?_, ?_, ?_, ?_, ?_, ?_⟩ <;> decide

/-! ### `play()` -/

theorem memsetZero_allocated (buf : List Int) (n : Int) (h : buf.length = n.toNat) :
    memsetZero buf n = List.replicate n.toNat 0 := by
  simp [memsetZero, ← h]

theorem init_allocated {raw : CelPd} {heap : Nat → Int} {i o r : Int} {s : CelPd}
    (h : init raw heap i o r = some s) : Allocated s := by
  simp only [init, ctor, Option.bind_eq_some] at h
  obtain ⟨s1, _, o0, ho0, i0, hi0, o1, ho1, i1, hi1, hs⟩ := h
  have hlen : ∀ (n : Int) (l : List Int), newSamples heap n = some l → l.length = n.toNat := by
    intro n l hl
    unfold newSamples at hl
    split at hl
    · cases hl
    · cases hl; simp
  cases hs
  exact ⟨hlen _ _ ho0, hlen _ _ ho1, hlen _ _ hi0, hlen _ _ hi1⟩

theorem run_append (y : Sys) (l1 l2 : List Action) :
    y.run (l1 ++ l2) = (y.run l1).run l2 := by
  simp [Sys.run, List.foldl_append]

theorem settle_eq_run (fuel : Nat) (y : Sys) :
    y.settle fuel = y.run (List.replicate fuel Action.loop) := by
  induction fuel generalizing y with
  | zero => rfl
  | succ fuel ih =>
    cases h : y.stepLoop with
    | none =>
      have hstay : y.step Action.loop = y := by simp [Sys.step, h]
      have hrun : ∀ k, y.run (List.replicate k Action.loop) = y := by
        intro k
        induction k with
        | zero => rfl
        | succ k ihk =>
          rw [List.replicate_succ]
          show (y.step Action.loop).run (List.replicate k Action.loop) = y
          rw [hstay, ihk]
      rw [settle_blocked _ h, hrun]
    | some y1 =>
      have hstep : y.step Action.loop = y1 := by simp [Sys.step, h]
      rw [settle_step (fuel + 1) (by omega) h, List.replicate_succ]
      show y1.settle fuel = (y.step Action.loop).run (List.replicate fuel Action.loop)
      rw [hstep, ih]

theorem first_iteration {st : CelPd} (n fuel : Nat) (hfuel : 7 ≤ fuel)
    (hi : st.mInputReady = true) (ho : st.mOutputReady = true)
    (hr : st.mPlayerRunning = true) (hq : st.bqPlayerBufferQueue ≠ none)
    (hrq : 0 < st.mInputChannels → st.bqRecorderBufferQueue ≠ none) :
    n + 1 ≤ (Sys.settle fuel ⟨st, Pc.loopHead, n⟩).iters := by
  obtain ⟨f, rfl⟩ : ∃ f, fuel = 7 + f := ⟨fuel - 7, by omega⟩
  obtain ⟨q, hq1⟩ := Option.ne_none_iff_exists'.mp hq
  rw [settle_eq_run, List.replicate_add, run_append, ← settle_eq_run]
  refine le_trans ?_ (settle_iters _ _)
  by_cases hc : 0 < st.mInputChannels
  · obtain ⟨q2, hq2⟩ := Option.ne_none_iff_exists'.mp (hrq hc)
    simp [Sys.run, List.replicate, Sys.step, Sys.stepLoop, playerLoopStep, enqueueRecorderLocked,
      enqueueRecorderWaits, enqueueRecorderSubmit, enqueuePlayerLocked, enqueuePlayerWaits,
      enqueuePlayerSubmit, processBlock, flipIndices, hi, ho, hr, hc, hq1, hq2]
  · simp [Sys.run, List.replicate, Sys.step, Sys.stepLoop, playerLoopStep, enqueuePlayerLocked,
      enqueuePlayerWaits, enqueuePlayerSubmit, processBlock, flipIndices, ho, hr, hc, hq1]

/-- C4: from every session state with a live play interface and blocks of the
allocated size, whatever the channel counts, `play()` returns and leaves both
readiness flags and `mPlayerRunning` true and all four blocks zero; in that
state neither wait condition holds, and (the queues being live) the thread
`play()` starts completes its first iteration without waiting, within 7
steps. -/
theorem play_postcondition (s : CelPd) (hitf : s.bqPlayerPlay ≠ none) (halloc : Allocated s)
    (hq : s.bqPlayerBufferQueue ≠ none)
    (hrq : 0 < s.mInputChannels → s.bqRecorderBufferQueue ≠ none) :
    ∃ s1, play s = some s1 ∧
      s1.mInputReady = true ∧ s1.mOutputReady = true ∧ s1.mPlayerRunning = true ∧
      s1.mOutputBuf = (List.replicate s.mOutputBufSamples.toNat 0,
                       List.replicate s.mOutputBufSamples.toNat 0) ∧
      s1.mInputBuf = (List.replicate s.mInputBufSamples.toNat 0,
                      List.replicate s.mInputBufSamples.toNat 0) ∧
      (∀ x, x ∈ s1.mOutputBuf.1 ∨ x ∈ s1.mOutputBuf.2 ∨ x ∈ s1.mInputBuf.1 ∨
        x ∈ s1.mInputBuf.2 → x = 0) ∧
      enqueueRecorderWaits s1 = false ∧ enqueuePlayerWaits s1 = false ∧
      ∀ n fuel, 7 ≤ fuel → n + 1 ≤ (Sys.settle fuel ⟨s1, Pc.loopHead, n⟩).iters := by
  obtain ⟨itf, hitf1⟩ := Option.ne_none_iff_exists'.mp hitf
  obtain ⟨a1, a2, a3, a4⟩ := halloc
  have hplay : play s = some (computeAudio { s with
      mInputReady := true
      mOutputReady := true
      mPlayerRunning := true
      mOutputBuf := (memsetZero s.mOutputBuf.1 s.mOutputBufSamples,
                     memsetZero s.mOutputBuf.2 s.mOutputBufSamples)
      mInputBuf := (memsetZero s.mInputBuf.1 s.mInputBufSamples,
                    memsetZero s.mInputBuf.2 s.mInputBufSamples)
      mMixerThread := some (threadsStarted s.trace)
      trace := s.trace ++ [Event.setPlayState itf true,
          Event.threadStart (threadsStarted s.trace), Event.notifyOutput]
        ++ (if s.mInputChannels > 0 then [Event.notifyInput] else []) } true) := by
    simp [play, hitf1]
  refine ⟨_, hplay, rfl, rfl, rfl, ?_, ?_, ?_, rfl, rfl, ?_⟩
  · simp [computeAudio, memsetZero_allocated _ _ a1, memsetZero_allocated _ _ a2]
  · simp [computeAudio, memsetZero_allocated _ _ a3, memsetZero_allocated _ _ a4]
  · intro x hx
    simp only [computeAudio, memsetZero_allocated _ _ a1, memsetZero_allocated _ _ a2,
      memsetZero_allocated _ _ a3, memsetZero_allocated _ _ a4, List.mem_replicate] at hx
    rcases hx with h | h | h | h <;> exact h.2
  · intro n fuel hfuel
    exact first_iteration n fuel hfuel rfl rfl rfl hq hrq

/-- Witness of C4 on the scenario A session (input channel count 0), as
created. -/
theorem play_postcondition_witness :
    createdA.bqPlayerPlay ≠ none ∧ Allocated createdA ∧ createdA.mInputChannels = 0 ∧
    ∃ s1, play createdA = some s1 ∧
      s1.mInputReady = true ∧ s1.mOutputReady = true ∧ s1.mPlayerRunning = true ∧
      s1.mOutputBuf = (List.replicate createdA.mOutputBufSamples.toNat 0,
                       List.replicate createdA.mOutputBufSamples.toNat 0) ∧
      s1.mInputBuf = (List.replicate createdA.mInputBufSamples.toNat 0,
                      List.replicate createdA.mInputBufSamples.toNat 0) ∧
      (∀ x, x ∈ s1.mOutputBuf.1 ∨ x ∈ s1.mOutputBuf.2 ∨ x ∈ s1.mInputBuf.1 ∨
        x ∈ s1.mInputBuf.2 → x = 0) ∧
      enqueueRecorderWaits s1 = false ∧ enqueuePlayerWaits s1 = false ∧
      ∀ n fuel, 7 ≤ fuel → n + 1 ≤ (Sys.settle fuel ⟨s1, Pc.loopHead, n⟩).iters :=
  ⟨by decide, init_allocated (rfl : init rawStorage rawHeap 0 2 44100 = some createdA),
   by decide,
   play_postcondition createdA (by decide)
     (init_allocated (rfl : init rawStorage rawHeap 0 2 44100 = some createdA))
     (by decide) (fun h => absurd h (by decide))⟩

/-- C5, as the code has it: `play()` has no guard against a session that is
already playing.  Whatever `mPlayerRunning` and `mMixerThread` hold, on a
session with a live play interface it returns, sets both readiness flags and
the running flag, runs `memset` over the four blocks, creates one more
processing thread and stores the new thread in `mMixerThread`. -/
theorem play_while_playing (s : CelPd) (hitf : s.bqPlayerPlay ≠ none) :
    ∃ s1, play s = some s1 ∧
      s1.mInputReady = true ∧ s1.mOutputReady = true ∧ s1.mPlayerRunning = true ∧
      s1.mOutputBuf = (memsetZero s.mOutputBuf.1 s.mOutputBufSamples,
                       memsetZero s.mOutputBuf.2 s.mOutputBufSamples) ∧
      s1.mInputBuf = (memsetZero s.mInputBuf.1 s.mInputBufSamples,
                      memsetZero s.mInputBuf.2 s.mInputBufSamples) ∧
      threadsStarted s1.trace = threadsStarted s.trace + 1 ∧
      s1.mMixerThread = some (threadsStarted s.trace) := by
  obtain ⟨itf, hitf1⟩ := Option.ne_none_iff_exists'.mp hitf
  refine ⟨_, by simp [play, hitf1]; rfl, rfl, rfl, rfl, rfl, rfl, ?_, rfl⟩
  simp only [computeAudio, threadsStarted, List.countP_append]
  split <;> simp [List.countP_cons]

/-- Witness of the amended C5 on the playing scenario A session. -/
theorem play_while_playing_witness :
    playingA.st.mPlayerRunning = true ∧ playingA.st.mMixerThread ≠ none ∧
    ∃ s1, play playingA.st = some s1 ∧
      s1.mInputReady = true ∧ s1.mOutputReady = true ∧ s1.mPlayerRunning = true ∧
      s1.mOutputBuf = (memsetZero playingA.st.mOutputBuf.1 playingA.st.mOutputBufSamples,
                       memsetZero playingA.st.mOutputBuf.2 playingA.st.mOutputBufSamples) ∧
      s1.mInputBuf = (memsetZero playingA.st.mInputBuf.1 playingA.st.mInputBufSamples,
                      memsetZero playingA.st.mInputBuf.2 playingA.st.mInputBufSamples) ∧
      threadsStarted s1.trace = threadsStarted playingA.st.trace + 1 ∧
      s1.mMixerThread = some (threadsStarted playingA.st.trace) :=
  ⟨by decide, by decide,
   play_while_playing playingA.st (by decide)⟩

/-- C5 fails as stated: on the playing scenario A session (running flag set,
thread 0 waiting for a callback, output flag consumed) `play()` is not
rejected: it sets the output flag again, starts a second thread and replaces
the thread handle. -/
theorem second_play_not_rejected :
    playingA.st.mPlayerRunning = true ∧
    playingA.st.mMixerThread = some 0 ∧
    playingA.pc = Pc.playWait ∧
    playingA.st.mOutputReady = false ∧
    play playingA.st ≠ none ∧
    play playingA.st ≠ some playingA.st ∧
    (play playingA.st).map (fun s => s.mOutputReady) = some true ∧
    (play playingA.st).map (fun s => s.mMixerThread) = some (some 1) ∧
    threadsStarted playingA.st.trace = 1 ∧
    (play playingA.st).map (fun s => threadsStarted s.trace) = some 2 := by
  refine ⟨?_, ?_, ?_, ?_, ?_, ?_, ?_, ?_, ?_, ?_⟩ <;> decide

/-! ### Stopping -/

/-- C2, as the code has it: `enqueuePlayer` has no stop result.  When the
thread is at the output wait with the output flag false and `mPlayerRunning`
false (player queue live), the wait condition is false; the thread stores
false in the flag (its value stays false), still submits the current output
block, once, flips the indices, and ends at its next test of `mPlayerRunning`,
with no further engine invocation. -/
theorem stop_during_output_wait (st : CelPd) (n : Nat) (hf : st.mOutputReady = false)
    (hr : st.mPlayerRunning = false) (hq : st.bqPlayerBufferQueue ≠ none) :
    enqueuePlayerWaits st = false ∧
    (Sys.run ⟨st, Pc.playWait, n⟩ (List.replicate 3 Action.loop)).pc = Pc.loopHead ∧
    (Sys.run ⟨st, Pc.playWait, n⟩ (List.replicate 4 Action.loop)).pc = Pc.exited ∧
    (Sys.run ⟨st, Pc.playWait, n⟩ (List.replicate 4 Action.loop)).iters = n + 1 ∧
    (Sys.run ⟨st, Pc.playWait, n⟩ (List.replicate 4 Action.loop)).st.mOutputReady =
      st.mOutputReady ∧
    (Sys.run ⟨st, Pc.playWait, n⟩ (List.replicate 4 Action.loop)).st.trace =
      st.trace ++ [Event.enqueuePlayer st.mOutputBufIndex] ∧
    playerSubmits (Sys.run ⟨st, Pc.playWait, n⟩ (List.replicate 4 Action.loop)).st.trace =
      playerSubmits st.trace + 1 ∧
    processCalls (Sys.run ⟨st, Pc.playWait, n⟩ (List.replicate 4 Action.loop)).st.trace =
      processCalls st.trace := by
  obtain ⟨q, hq1⟩ := Option.ne_none_iff_exists'.mp hq
  refine ⟨?_, ?_, ?_, ?_, ?_, ?_, ?_, ?_⟩ <;>
    simp [Sys.run, List.replicate, Sys.step, Sys.stepLoop, playerLoopStep, enqueuePlayerLocked,
      enqueuePlayerWaits, enqueuePlayerSubmit, flipIndices, hf, hr, hq1, playerSubmits,
      processCalls, engineCalls_append, outputSubmissions_append, engineCalls,
      outputSubmissions]

/-- Witness of the amended C2 on the scenario A session, paused while its
thread waits for the first callback. -/
theorem stop_during_output_wait_witness :
    pausedA.pc = Pc.playWait ∧ pausedA.st.mOutputReady = false ∧
    pausedA.st.mPlayerRunning = false ∧
    (Sys.run ⟨pausedA.st, Pc.playWait, 1⟩ (List.replicate 4 Action.loop)).st.trace =
      pausedA.st.trace ++ [Event.enqueuePlayer pausedA.st.mOutputBufIndex] :=
  ⟨by decide, by decide, by decide,
   (stop_during_output_wait pausedA.st 1 (by decide) (by decide) (by decide)).2.2.2.2.2.1⟩

/-- C2 fails as stated: the scenario A session is paused while its thread waits
at the output wait with the flag false; the wait ends and in that iteration
the thread submits output block 1 to the device before it leaves the loop. -/
theorem stop_still_submits :
    pausedA.pc = Pc.playWait ∧
    pausedA.st.mOutputReady = false ∧
    pausedA.st.mPlayerRunning = false ∧
    pausedA.iters = 1 ∧
    playerSubmits pausedA.st.trace = 1 ∧
    (pausedA.run (List.replicate 2 Action.loop)).iters = 1 ∧
    playerSubmits (pausedA.run (List.replicate 2 Action.loop)).st.trace = 2 ∧
    (pausedA.run (List.replicate 2 Action.loop)).st.trace =
      pausedA.st.trace ++ [Event.enqueuePlayer 1] ∧
    (pausedA.run (List.replicate 4 Action.loop)).pc = Pc.exited := by
  refine ⟨?_, ?_, ?_, ?_, ?_, ?_, ?_, ?_, ?_⟩ <;> decide

/-- C3 on the code: the scenario B session is paused while its thread waits
at the input wait with no input callback pending.  `mPlayerRunning` is false,
yet the wait condition of `enqueueRecorder` is true and the thread cannot
move, however long it is given; the condition of `enqueuePlayer` is false in
the same state. -/
theorem input_wait_ignores_stop :
    pausedB.pc = Pc.recWait ∧
    pausedB.st.mPlayerRunning = false ∧
    pausedB.st.mInputReady = false ∧
    enqueueRecorderWaits pausedB.st = true ∧
    pausedB.stepLoop = none ∧
    pausedB.settle 1000 = pausedB ∧
    enqueuePlayerWaits pausedB.st = false :=
  ⟨by decide, by decide, by decide, by decide, by decide,
   settle_blocked 1000 (by decide), by decide⟩

/-- C6 on the code: in the first iteration of the scenario B session the
thread hands input block 0 to the recorder queue and next invokes the engine
on input block 0, with no recorder callback in between: the engine reads a
block the device holds. -/
theorem engine_reads_submitted_input_block :
    (sessionB.run (List.replicate 4 Action.loop)).iters = 0 ∧
    (sessionB.run (List.replicate 4 Action.loop)).st.trace =
      sessionB.st.trace ++ [Event.enqueueRecorder 0, Event.pdProcess 16 0 0] ∧
    ownershipRespected sessionB.st.trace = true ∧
    ownershipRespected (sessionB.run (List.replicate 3 Action.loop)).st.trace = true ∧
    ownershipRespected (sessionB.run (List.replicate 4 Action.loop)).st.trace = false := by
  refine ⟨?_, ?_, ?_, ?_, ?_⟩ <;> decide

end cel
